import Mathlib

/-!
# Storage bucket IAM updater

A shallow embedding of `mmv1/third_party/validator/iam_storage_bucket.go`:
the identifier resolution performed when an updater is constructed, the
identifier/mutex/description accessors, and the two policy operations with
their outbound requests and error wrapping.

Go strings are embedded as `String`; `map[string]string` as an association
list; a Go `(value, error)` result as `Except GoError value`.
-/

set_option autoImplicit false

namespace StorageBucketIam

/-! ## Errors -/

/-- A Go `error` value: either a plain message (`errors.New`, `fmt.Errorf`) or an
`errwrap` wrapper that keeps the outer message and the wrapped inner error. -/
inductive GoError where
  | plain (msg : String)
  | wrapped (outer : String) (inner : GoError)
deriving DecidableEq, Repr

/-- The `Error()` method: a wrapper reports its outer message. -/
def GoError.Error : GoError → String
  | .plain msg => msg
  | .wrapped outer _ => outer

/-- The error an `errwrap` wrapper carries inside, if any. -/
def GoError.inner? : GoError → Option GoError
  | .plain _ => none
  | .wrapped _ inner => some inner

/-- The opening brace character. -/
def lbrace : Char := Char.ofNat 123

/-- The replacement marker of `errwrap.Wrapf`. -/
def errMarker : String := "\x7b\x7berr\x7d\x7d"

/-- The scan of `strings.Replace(s, old, new, -1)` for a non-empty `old`, on
characters: `skip` counts the characters of a matched occurrence still to be
passed over. -/
def replaceScan (old new : List Char) : Nat → List Char → List Char
  | _, [] => []
  | skip + 1, _ :: cs => replaceScan old new skip cs
  | 0, c :: cs =>
    if old.isPrefixOf (c :: cs) then new ++ replaceScan old new (old.length - 1) cs
    else c :: replaceScan old new 0 cs

/-- The call `strings.Replace(format, "{{err}}", msg, -1)` made by `errwrap.Wrapf`. -/
def replaceErrMarker (format msg : String) : String :=
  String.mk (replaceScan errMarker.data msg.data 0 format.data)

/-- The call `errwrap.Wrapf(format, err)`: the outer message is `format` with every
`{{err}}` replaced by `err.Error()`, and `err` is kept as the inner error. -/
def Wrapf (format : String) (err : GoError) : GoError :=
  .wrapped (replaceErrMarker format err.Error) err

/-- The test `strings.Contains(s, sub)`, on characters. -/
def containsChars (sub : List Char) : List Char → Bool
  | [] => sub.isEmpty
  | c :: cs => sub.isPrefixOf (c :: cs) || containsChars sub cs

/-- The message `s` contains `sub` as a contiguous substring. -/
def strContains (s sub : String) : Bool := containsChars sub.data s.data

/-! ## Resource data and configuration -/

/-- The part of the provider `Config` this file reads. The `*Config` pointer is
taken to be non-nil. -/
structure Config where
  UserAgent : String
  StorageBasePath : String
deriving DecidableEq, Repr

/-- The key `schema.TimeoutCreate`. -/
def TimeoutCreate : String := "create"

/-- Resource data (`TerraformResourceData` / `*schema.ResourceData`) restricted to
string-typed fields. `fields` lists the fields the resource schema declares with
their current values; an unset field holds the zero value `""`. -/
structure ResourceData where
  fields : List (String × String)
  id : String
  timeouts : List (String × Nat)
deriving DecidableEq, Repr

namespace ResourceData

/-- The call `d.Get(key).(string)`: the value of a declared field, the zero value
otherwise. (On a field the schema does not declare, Go's type assertion panics;
the statements about the producer take the field as declared.) -/
def Get (d : ResourceData) (key : String) : String :=
  (d.fields.lookup key).getD ""

/-- The call `d.GetOk(key)`: the value, and whether it is set to a non-zero value. -/
def GetOk (d : ResourceData) (key : String) : String × Bool :=
  (d.Get key, d.Get key != "")

/-- The call `d.Set(key, value)`: writes a declared field, and is rejected by the
schema for a key it does not declare. -/
def Set (d : ResourceData) (key value : String) : Except GoError ResourceData :=
  if d.fields.any (fun kv => kv.1 == key) then
    .ok { d with fields := d.fields.map (fun kv => if kv.1 == key then (key, value) else kv) }
  else
    .error (.plain ("Invalid address to set: " ++ key))

/-- The schema declares the field `key` and it holds `value`. -/
def hasField (d : ResourceData) (key value : String) : Prop :=
  d.fields.lookup key = some value

/-- The call `d.Id()`. -/
def Id (d : ResourceData) : String := d.id

/-- The call `d.SetId(v)`. -/
def SetId (d : ResourceData) (v : String) : ResourceData := { d with id := v }

/-- The call `d.Timeout(key)`. -/
def Timeout (d : ResourceData) (key : String) : Nat :=
  (d.timeouts.lookup key).getD 0

end ResourceData

/-! ## String maps -/

/-- A Go `map[string]string`. -/
abbrev StrMap := List (String × String)

/-- The assignment `m[k] = v`. -/
def StrMap.set (m : StrMap) (k v : String) : StrMap :=
  (k, v) :: m.filter (fun kv => kv.1 != k)

/-- The read `m[k]`: the zero value when the key is absent. -/
def StrMap.get (m : StrMap) (k : String) : String :=
  (m.lookup k).getD ""

/-- The loop `for k, v := range src { dst[k] = v }`. -/
def StrMap.merge (dst src : StrMap) : StrMap :=
  src.foldl (fun acc kv => acc.set kv.1 kv.2) dst

/-! ## Identifier patterns -/

/-- A piece of an identifier pattern: literal text, or a named group
`(?P<name>[^c]+)` of one or more characters other than `c`. -/
inductive Piece where
  | lit (text : String)
  | group (name : String) (excluded : Char)
deriving DecidableEq, Repr

/-- An identifier pattern, as a sequence of pieces. -/
abbrev Pattern := List Piece

/-- The pattern list `[]string{"b/(?P<bucket>[^/]+)", "(?P<bucket>[^/]+)"}` that both
construction paths pass to `getImportIdQualifiers`. -/
def bucketIdPatterns : List Pattern :=
  [[.lit "b/", .group "bucket" '/'], [.group "bucket" '/']]

/-- Modelled from the spec: how the absent `getImportIdQualifiers` decides that an
identifier matches one pattern. The spec counts an identifier with a `/` in the
wrong position as matching neither pattern, so a pattern has to account for the
whole identifier; each named group takes the run of allowed characters, which must
not be empty. The result maps group names to the extracted text. -/
def matchPieces : Pattern → List Char → Option StrMap
  | [], [] => some []
  | [], _ :: _ => none
  | .lit text :: ps, cs =>
    if text.data.isPrefixOf cs then matchPieces ps (cs.drop text.data.length) else none
  | .group name excluded :: ps, cs =>
    if (cs.takeWhile (fun c => c != excluded)).isEmpty then none
    else
      (matchPieces ps (cs.dropWhile (fun c => c != excluded))).map
        (fun m => (name, String.mk (cs.takeWhile (fun c => c != excluded))) :: m)

/-- Modelled from the spec: `getImportIdQualifiers`, which is not among the sources.
The patterns are tried in order, the first pattern that matches wins and its named
groups populate the field-name to value mapping; an identifier that matches none of
the patterns is a parse error. -/
def getImportIdQualifiers (idRegexes : List Pattern) (_d : ResourceData) (_config : Config)
    (id : String) : Except GoError StrMap :=
  match idRegexes.findSome? (fun p => matchPieces p id.data) with
  | some m => .ok m
  | none => .error (.plain ("Import id " ++ id ++ " doesn't match any of the accepted formats"))

/-! ## The updater -/

/-- The struct `StorageBucketIamUpdater`. -/
structure StorageBucketIamUpdater where
  bucket : String
  d : ResourceData
  Config : Config
deriving DecidableEq, Repr

namespace StorageBucketIamUpdater

/-- The method `GetResourceId`: `fmt.Sprintf("b/%s", u.bucket)`. -/
def GetResourceId (u : StorageBucketIamUpdater) : String :=
  "b/" ++ u.bucket

/-- The method `GetMutexKey`: `fmt.Sprintf("iam-storage-bucket-%s", u.GetResourceId())`. -/
def GetMutexKey (u : StorageBucketIamUpdater) : String :=
  "iam-storage-bucket-" ++ u.GetResourceId

end StorageBucketIamUpdater

/-- The function `StorageBucketIamUpdaterProducer`. The data `d` is shared by reference
in Go, so the returned updater holds the data as it is after the write to `bucket`. -/
def StorageBucketIamUpdaterProducer (d : ResourceData) (config : Config) :
    Except GoError StorageBucketIamUpdater :=
  let values : StrMap := []
  let values := if (d.GetOk "bucket").2 then values.set "bucket" (d.GetOk "bucket").1 else values
  match getImportIdQualifiers bucketIdPatterns d config (d.Get "bucket") with
  | .error err => .error err
  | .ok m =>
    let values := values.merge m
    let u : StorageBucketIamUpdater := { bucket := values.get "bucket", d := d, Config := config }
    match d.Set "bucket" u.GetResourceId with
    | .error err => .error (.plain ("Error setting bucket: " ++ err.Error))
    | .ok d1 => .ok { u with d := d1 }

/-- The function `StorageBucketIdParseFunc`: on success the result is the record after
the write to `bucket` and `SetId`. -/
def StorageBucketIdParseFunc (d : ResourceData) (config : Config) : Except GoError ResourceData :=
  let values : StrMap := []
  match getImportIdQualifiers bucketIdPatterns d config d.Id with
  | .error err => .error err
  | .ok m =>
    let values := values.merge m
    let u : StorageBucketIamUpdater := { bucket := values.get "bucket", d := d, Config := config }
    match d.Set "bucket" u.GetResourceId with
    | .error err => .error (.plain ("Error setting bucket: " ++ err.Error))
    | .ok d1 => .ok (d1.SetId u.GetResourceId)


/-! ## Quoting and the resource description -/

/-- The double quote character. -/
def dquote : Char := Char.ofNat 34

/-- The backslash character. -/
def backslash : Char := Char.ofNat 92

/-- The digit table `lowerhex` of `strconv`. -/
def lowerhex (n : Nat) : Char :=
  "0123456789abcdef".data.getD n '0'

/-- The `width` hexadecimal digits of `r`, most significant first. -/
def hexDigits (width r : Nat) : List Char :=
  (List.range width).reverse.map (fun i => lowerhex ((r >>> (4 * i)) &&& 0xF))

/-- The test `strconv.IsPrint`: decided by range up to U+00FF, and by the Unicode
tables `printable` above. -/
def IsPrint (printable : Char → Bool) (c : Char) : Bool :=
  if c.toNat ≤ 0xFF then
    if 0x20 ≤ c.toNat ∧ c.toNat < 0x7F then true
    else if 0xA1 ≤ c.toNat then c.toNat != 0xAD
    else false
  else printable c

/-- The escaping of one rune by `strconv.Quote` (`appendEscapedRune` with the double
quote as quote character). -/
def escapeRune (printable : Char → Bool) (c : Char) : List Char :=
  if c = dquote ∨ c = backslash then [backslash, c]
  else if IsPrint printable c then [c]
  else if c.toNat = 7 then [backslash, 'a']
  else if c.toNat = 8 then [backslash, 'b']
  else if c.toNat = 12 then [backslash, 'f']
  else if c.toNat = 10 then [backslash, 'n']
  else if c.toNat = 13 then [backslash, 'r']
  else if c.toNat = 9 then [backslash, 't']
  else if c.toNat = 11 then [backslash, 'v']
  else if c.toNat < 0x20 ∨ c.toNat = 0x7F then backslash :: 'x' :: hexDigits 2 c.toNat
  else if c.toNat < 0x10000 then backslash :: 'u' :: hexDigits 4 c.toNat
  else backslash :: 'U' :: hexDigits 8 c.toNat

/-- The verb `%q` on a string (`strconv.Quote`). -/
def Quote (printable : Char → Bool) (s : String) : String :=
  String.mk (dquote :: (s.data.flatMap (escapeRune printable) ++ [dquote]))

/-- The method `DescribeResource`: `fmt.Sprintf("storage bucket %q", u.GetResourceId())`. -/
def StorageBucketIamUpdater.DescribeResource (printable : Char → Bool)
    (u : StorageBucketIamUpdater) : String :=
  "storage bucket " ++ Quote printable u.GetResourceId

/-! ## Policy operations -/

/-- A call handed to the transport helper: `SendRequest` carries no timeout of its
own, `SendRequestWithTimeout` carries one. -/
structure Request (Payload : Type) where
  method : String
  project : String
  rawURL : String
  userAgent : String
  body : Option Payload
  timeout : Option Nat

/-- The helpers and constants this file uses from the rest of the provider, taken as
parameters: the policy version constant, the Unicode tables behind `%q`, URL template
substitution, query parameters, the user agent, the transport, and the conversions
between the generic payload and the typed policy. -/
structure Collaborators (Payload Policy : Type) where
  IamPolicyVersion : Int
  printable : Char → Bool
  ReplaceVars : ResourceData → Config → String → Except GoError String
  AddQueryParams : String → StrMap → Except GoError String
  generateUserAgentString : ResourceData → String → Except GoError String
  SendRequest : Config → String → String → String → String → Option Payload →
    Except GoError Payload
  SendRequestWithTimeout : Config → String → String → String → String → Option Payload →
    Nat → Except GoError Payload
  Convert : Payload → Except GoError Policy
  ConvertToMap : Policy → Except GoError Payload

section Operations

variable {Payload Policy : Type}

/-- The template `fmt.Sprintf("{{StorageBasePath}}%s/%s", fmt.Sprintf("b/%s", u.bucket),
methodIdentifier)`. -/
def urlTemplate (bucket methodIdentifier : String) : String :=
  "\x7b\x7bStorageBasePath\x7d\x7d" ++ ("b/" ++ bucket) ++ "/" ++ methodIdentifier

/-- The method `qualifyBucketUrl`. -/
def StorageBucketIamUpdater.qualifyBucketUrl (env : Collaborators Payload Policy)
    (u : StorageBucketIamUpdater) (methodIdentifier : String) : Except GoError String :=
  match env.ReplaceVars u.d u.Config (urlTemplate u.bucket methodIdentifier) with
  | .error err => .error err
  | .ok url => .ok url

/-- The query parameters `map[string]string{"optionsRequestedPolicyVersion":
fmt.Sprintf("%d", IamPolicyVersion)}`. -/
def policyVersionParams (env : Collaborators Payload Policy) : StrMap :=
  [("optionsRequestedPolicyVersion", toString env.IamPolicyVersion)]

/-- The method `GetResourceIamPolicy`: the transport calls it issued, and its result. -/
def StorageBucketIamUpdater.GetResourceIamPolicy (env : Collaborators Payload Policy)
    (u : StorageBucketIamUpdater) : List (Request Payload) × Except GoError Policy :=
  match u.qualifyBucketUrl env "iam" with
  | .error err => ([], .error err)
  | .ok url =>
    match env.AddQueryParams url (policyVersionParams env) with
    | .error err => ([], .error err)
    | .ok url =>
      match env.generateUserAgentString u.d u.Config.UserAgent with
      | .error err => ([], .error err)
      | .ok userAgent =>
        let call : Request Payload := ⟨"GET", "", url, userAgent, none, none⟩
        match env.SendRequest u.Config "GET" "" url userAgent none with
        | .error err =>
          ([call], .error (Wrapf ("Error retrieving IAM policy for " ++
            u.DescribeResource env.printable ++ ": " ++ errMarker) err))
        | .ok policy =>
          match env.Convert policy with
          | .error err =>
            ([call], .error (Wrapf ("Cannot convert a policy to a resource manager policy: "
              ++ errMarker) err))
          | .ok out => ([call], .ok out)

/-- The method `SetResourceIamPolicy`: the transport calls it issued, and its error if
any. -/
def StorageBucketIamUpdater.SetResourceIamPolicy (env : Collaborators Payload Policy)
    (u : StorageBucketIamUpdater) (policy : Policy) :
    List (Request Payload) × Except GoError Unit :=
  match env.ConvertToMap policy with
  | .error err => ([], .error err)
  | .ok json =>
    let obj := json
    match u.qualifyBucketUrl env "iam" with
    | .error err => ([], .error err)
    | .ok url =>
      match env.generateUserAgentString u.d u.Config.UserAgent with
      | .error err => ([], .error err)
      | .ok userAgent =>
        let call : Request Payload :=
          ⟨"PUT", "", url, userAgent, some obj, some (u.d.Timeout TimeoutCreate)⟩
        match env.SendRequestWithTimeout u.Config "PUT" "" url userAgent (some obj)
            (u.d.Timeout TimeoutCreate) with
        | .error err =>
          ([call], .error (Wrapf ("Error setting IAM policy for " ++
            u.DescribeResource env.printable ++ ": " ++ errMarker) err))
        | .ok _ => ([call], .ok ())

end Operations

/-! ## Diff suppression -/

/-- The resource an identifier refers to: the bucket its first matching pattern
extracts. -/
def referredBucket (s : String) : Option StrMap :=
  bucketIdPatterns.findSome? (fun p => matchPieces p s.data)

/-- Modelled from the spec: `compareResourceNames`, which is not among the sources.
Two identifiers show no meaningful difference when they refer to the same resource,
whichever of the short and long forms each is written in; identifiers that refer to
no resource show no difference only when they are the same string. -/
def compareResourceNames (_k old new : String) (_d : Option ResourceData) : Bool :=
  match referredBucket old, referredBucket new with
  | some a, some b => a == b
  | _, _ => old == new

/-- The function `StorageBucketDiffSuppress`. -/
def StorageBucketDiffSuppress (_k old new : String) (_d : Option ResourceData) : Bool :=
  compareResourceNames "" old new none

/-! ## Sample collaborators -/

/-- A template substitution that replaces the leading `{{StorageBasePath}}` by the
configured base path. -/
def substBasePath (_d : ResourceData) (config : Config) (template : String) :
    Except GoError String :=
  .ok (config.StorageBasePath ++ String.mk (template.data.drop 19))

/-- A template substitution that fails with the given message. -/
def failVars (msg : String) (_d : ResourceData) (_config : Config) (_template : String) :
    Except GoError String :=
  .error (.plain msg)

/-- Collaborators over string payloads and policies: the given template substitution,
a backend that answers every request with `reply`, identity conversions, and policy
version 3. -/
def stubEnv (vars : ResourceData → Config → String → Except GoError String)
    (reply : Except GoError String) : Collaborators String String where
  IamPolicyVersion := 3
  printable := fun _ => true
  ReplaceVars := vars
  AddQueryParams := fun url params =>
    .ok (url ++ "?" ++ String.intercalate "&" (params.map (fun kv => kv.1 ++ "=" ++ kv.2)))
  generateUserAgentString := fun _ userAgent => .ok userAgent
  SendRequest := fun _ _ _ _ _ _ => reply
  SendRequestWithTimeout := fun _ _ _ _ _ _ _ => reply
  Convert := fun payload => .ok payload
  ConvertToMap := fun policy => .ok policy

/-! ## Valid bucket names -/

/-- A valid bucket name: non-empty and without `/`. -/
def validName (name : String) : Prop :=
  name.data ≠ [] ∧ '/' ∉ name.data

instance (name : String) : Decidable (validName name) :=
  inferInstanceAs (Decidable (_ ∧ _))

/-! ## Lemmas on pattern matching -/

theorem data_long_form (name : String) : ("b/" ++ name).data = 'b' :: '/' :: name.data := by
  simp [String.data_append]

theorem takeWhile_all (x : Char) (cs : List Char) (h : x ∉ cs) :
    cs.takeWhile (fun c => c != x) = cs := by
  rw [List.takeWhile_eq_self_iff]
  intro c hc
  simp only [bne_iff_ne, ne_eq]
  rintro rfl
  exact h hc

theorem dropWhile_all (x : Char) (cs : List Char) (h : x ∉ cs) :
    cs.dropWhile (fun c => c != x) = [] := by
  rw [List.dropWhile_eq_nil_iff]
  intro c hc
  simp only [bne_iff_ne, ne_eq]
  rintro rfl
  exact h hc

/-- The short pattern matches exactly the non-empty strings without `/`. -/
theorem matchPieces_short (cs : List Char) (m : StrMap) :
    matchPieces [.group "bucket" '/'] cs = some m ↔
      cs ≠ [] ∧ '/' ∉ cs ∧ m = [("bucket", String.mk cs)] := by
  constructor
  · intro h
    simp only [matchPieces] at h
    split at h
    · exact absurd h (by simp)
    · rename_i hne
      cases hd : cs.dropWhile (fun c => c != '/') with
      | nil =>
        have hall : '/' ∉ cs := by
          intro hmem
          have := (List.dropWhile_eq_nil_iff).1 hd _ hmem
          simp at this
        rw [hd, takeWhile_all _ _ hall] at h
        rw [takeWhile_all _ _ hall] at hne
        refine ⟨?_, hall, ?_⟩
        · intro hnil
          exact hne (by simp [hnil])
        · simpa [matchPieces] using h.symm
      | cons c rest =>
        rw [hd] at h
        simp [matchPieces] at h
  · rintro ⟨hne, hall, rfl⟩
    simp only [matchPieces]
    rw [takeWhile_all _ _ hall, dropWhile_all _ _ hall]
    cases cs with
    | nil => exact absurd rfl hne
    | cons c cs => simp [matchPieces]

/-- The long pattern matches exactly `b/` followed by a non-empty string without `/`. -/
theorem matchPieces_long (cs : List Char) (m : StrMap) :
    matchPieces [.lit "b/", .group "bucket" '/'] cs = some m ↔
      ∃ rest, cs = 'b' :: '/' :: rest ∧ rest ≠ [] ∧ '/' ∉ rest ∧
        m = [("bucket", String.mk rest)] := by
  have hlit : ("b/" : String).data = ['b', '/'] := rfl
  constructor
  · intro h
    rw [matchPieces, hlit] at h
    split at h
    · rename_i hp
      match cs, hp with
      | c1 :: c2 :: rest, hp =>
        simp [List.isPrefixOf] at hp
        obtain ⟨rfl, rfl⟩ := hp
        simp only [List.length_cons, List.length_nil, List.drop_succ_cons, List.drop_zero] at h
        obtain ⟨h1, h2, h3⟩ := (matchPieces_short rest m).1 h
        exact ⟨rest, rfl, h1, h2, h3⟩
    · exact absurd h (by simp)
  · rintro ⟨rest, rfl, h1, h2, h3⟩
    rw [matchPieces, hlit]
    simp only [List.isPrefixOf, beq_self_eq_true, Bool.and_self, if_true, List.length_cons,
      List.length_nil, List.drop_succ_cons, List.drop_zero]
    exact (matchPieces_short rest m).2 ⟨h1, h2, h3⟩

/-- Resolution succeeds exactly on the short and long forms of a valid name, and then
yields that name under the key `bucket`. -/
theorem getImportIdQualifiers_ok_iff (d : ResourceData) (config : Config) (id : String)
    (m : StrMap) :
    getImportIdQualifiers bucketIdPatterns d config id = .ok m ↔
      ∃ name, validName name ∧ (id = name ∨ id = "b/" ++ name) ∧ m = [("bucket", name)] := by
  unfold getImportIdQualifiers bucketIdPatterns
  simp only [List.findSome?]
  cases hl : matchPieces [.lit "b/", .group "bucket" '/'] id.data with
  | some ml =>
    obtain ⟨rest, hcs, h1, h2, h3⟩ := (matchPieces_long _ _).1 hl
    simp only [Except.ok.injEq]
    constructor
    · rintro rfl
      refine ⟨String.mk rest, ⟨h1, h2⟩, Or.inr ?_, h3⟩
      apply String.ext
      rw [data_long_form, hcs]
    · rintro ⟨name, ⟨hv1, hv2⟩, hid, rfl⟩
      rcases hid with hid | hid
      · subst hid
        rw [hcs] at hv2
        simp at hv2
      · subst hid
        rw [data_long_form] at hcs
        simp only [List.cons.injEq, true_and] at hcs
        rw [h3, ← hcs]
  | none =>
    cases hs : matchPieces [.group "bucket" '/'] id.data with
    | some ms =>
      obtain ⟨h1, h2, h3⟩ := (matchPieces_short _ _).1 hs
      simp only [Except.ok.injEq]
      constructor
      · rintro rfl
        exact ⟨id, ⟨h1, h2⟩, Or.inl rfl, h3⟩
      · rintro ⟨name, ⟨_, _⟩, hid, rfl⟩
        rcases hid with hid | hid
        · subst hid
          rw [h3]
        · subst hid
          rw [data_long_form] at h2
          simp at h2
    | none =>
      refine ⟨fun h => (nomatch h), ?_⟩
      rintro ⟨name, ⟨hv1, hv2⟩, hid, _⟩
      rcases hid with hid | hid
      · subst hid
        have := (matchPieces_short id.data [("bucket", String.mk id.data)]).2 ⟨hv1, hv2, rfl⟩
        rw [hs] at this
        exact absurd this (by simp)
      · subst hid
        have := (matchPieces_long ("b/" ++ name).data [("bucket", String.mk name.data)]).2
          ⟨name.data, data_long_form name, hv1, hv2, rfl⟩
        rw [hl] at this
        exact absurd this (by simp)

/-! ## Lemmas on maps and resource data -/

theorem merge_bucket_get (values : StrMap) (name : String) :
    (values.merge [("bucket", name)]).get "bucket" = name := by
  simp [StrMap.merge, StrMap.set, StrMap.get, List.lookup]

theorem any_key_of_lookup (fields : List (String × String)) (k v : String)
    (h : fields.lookup k = some v) : fields.any (fun kv => kv.1 == k) = true := by
  induction fields with
  | nil => simp at h
  | cons kv rest ih =>
    obtain ⟨a, b⟩ := kv
    by_cases hk : a = k
    · simp [hk]
    · have hk2 : ¬ k = a := fun e => hk e.symm
      simp only [List.lookup, beq_eq_false_iff_ne.mpr hk2] at h
      simp [ih h]

theorem lookup_after_write (fields : List (String × String)) (k v : String)
    (h : fields.any (fun kv => kv.1 == k) = true) :
    (fields.map (fun kv => if kv.1 == k then (k, v) else kv)).lookup k = some v := by
  induction fields with
  | nil => simp at h
  | cons kv rest ih =>
    obtain ⟨a, b⟩ := kv
    by_cases hk : a = k
    · subst hk
      rw [List.map_cons, if_pos (by simp)]
      simp [List.lookup]
    · have hk2 : ¬ k = a := fun e => hk e.symm
      simp only [List.any_cons, beq_eq_false_iff_ne.mpr hk, Bool.false_or] at h
      rw [List.map_cons, if_neg (by simpa using hk)]
      simp only [List.lookup, beq_eq_false_iff_ne.mpr hk2]
      exact ih h

/-- A successful write is read back by `Get`, and leaves the id alone. -/
theorem get_after_set (d d1 : ResourceData) (k v : String) (h : d.Set k v = .ok d1) :
    d1.Get k = v ∧ d1.id = d.id := by
  unfold ResourceData.Set at h
  split at h
  · rename_i hany
    simp only [Except.ok.injEq] at h
    subst h
    refine ⟨?_, rfl⟩
    show (List.lookup k (d.fields.map (fun kv => if kv.1 == k then (k, v) else kv))).getD "" = v
    rw [lookup_after_write _ _ _ hany]
    rfl
  · exact nomatch h

/-- A write to a declared field succeeds. -/
theorem set_declared (d : ResourceData) (k s v : String) (h : d.fields.lookup k = some s) :
    ∃ d1, d.Set k v = .ok d1 := by
  unfold ResourceData.Set
  rw [any_key_of_lookup _ _ _ h]
  exact ⟨_, rfl⟩

/-! ## Lemmas on construction -/

/-- Construction from a declared `bucket` field holding either form of a valid name. -/
theorem producer_of_form (d : ResourceData) (config : Config) (s name : String)
    (hv : validName name) (hs : s = name ∨ s = "b/" ++ name)
    (hf : d.fields.lookup "bucket" = some s) :
    ∃ d1, d.Set "bucket" ("b/" ++ name) = .ok d1 ∧
      StorageBucketIamUpdaterProducer d config = .ok ⟨name, d1, config⟩ := by
  obtain ⟨d1, hd1⟩ := set_declared d "bucket" s ("b/" ++ name) hf
  refine ⟨d1, hd1, ?_⟩
  have hget : d.Get "bucket" = s := by simp [ResourceData.Get, hf]
  have hq : getImportIdQualifiers bucketIdPatterns d config (d.Get "bucket")
      = .ok [("bucket", name)] := by
    rw [getImportIdQualifiers_ok_iff]
    exact ⟨name, hv, hget ▸ hs, rfl⟩
  unfold StorageBucketIamUpdaterProducer
  simp only [hq, merge_bucket_get, StorageBucketIamUpdater.GetResourceId, hd1]

/-- Whatever construction from configuration succeeds on, it resolved a valid name. -/
theorem producer_ok_inv (d : ResourceData) (config : Config) (u : StorageBucketIamUpdater)
    (h : StorageBucketIamUpdaterProducer d config = .ok u) :
    ∃ name, validName name ∧ (d.Get "bucket" = name ∨ d.Get "bucket" = "b/" ++ name) ∧
      u.bucket = name ∧ u.Config = config ∧ d.Set "bucket" ("b/" ++ name) = .ok u.d := by
  unfold StorageBucketIamUpdaterProducer at h
  cases hq : getImportIdQualifiers bucketIdPatterns d config (d.Get "bucket") with
  | error e => simp only [hq] at h; exact nomatch h
  | ok m =>
    obtain ⟨name, hv, hform, rfl⟩ := (getImportIdQualifiers_ok_iff _ _ _ _).1 hq
    simp only [hq, merge_bucket_get, StorageBucketIamUpdater.GetResourceId] at h
    cases hset : d.Set "bucket" ("b/" ++ name) with
    | error e => simp only [hset] at h; exact nomatch h
    | ok d1 =>
      simp only [hset, Except.ok.injEq] at h
      subst h
      exact ⟨name, hv, hform, rfl, rfl, hset⟩

/-- Whatever the import path succeeds on, it resolved a valid name. -/
theorem parseFunc_ok_inv (d d2 : ResourceData) (config : Config)
    (h : StorageBucketIdParseFunc d config = .ok d2) :
    ∃ name d1, validName name ∧ (d.id = name ∨ d.id = "b/" ++ name) ∧
      d.Set "bucket" ("b/" ++ name) = .ok d1 ∧ d2 = d1.SetId ("b/" ++ name) := by
  unfold StorageBucketIdParseFunc at h
  cases hq : getImportIdQualifiers bucketIdPatterns d config d.Id with
  | error e => simp only [hq] at h; exact nomatch h
  | ok m =>
    obtain ⟨name, hv, hform, rfl⟩ := (getImportIdQualifiers_ok_iff _ _ _ _).1 hq
    simp only [hq, merge_bucket_get, StorageBucketIamUpdater.GetResourceId] at h
    cases hset : d.Set "bucket" ("b/" ++ name) with
    | error e => simp only [hset] at h; exact nomatch h
    | ok d1 =>
      simp only [hset, Except.ok.injEq] at h
      exact ⟨name, d1, hv, hform, hset, h.symm⟩

/-- The two forms of valid names never coincide across different names. -/
theorem form_name_unique (s n m : String) (hn : validName n) (hm : validName m)
    (h1 : s = n ∨ s = "b/" ++ n) (h2 : s = m ∨ s = "b/" ++ m) : n = m := by
  rcases h1 with rfl | rfl <;> rcases h2 with h | h
  · exact h
  · exfalso
    have := hn.2
    rw [h, data_long_form] at this
    simp at this
  · exfalso
    have := hm.2
    rw [← h, data_long_form] at this
    simp at this
  · have := congrArg String.data h
    simp only [data_long_form, List.cons.injEq, true_and] at this
    exact String.ext this


/-! ## Lemmas on diff suppression and keys -/

theorem referredBucket_of_form (s name : String) (hv : validName name)
    (hs : s = name ∨ s = "b/" ++ name) : referredBucket s = some [("bucket", name)] := by
  have h := (getImportIdQualifiers_ok_iff ⟨[], "", []⟩ ⟨"", ""⟩ s [("bucket", name)]).2
    ⟨name, hv, hs, rfl⟩
  unfold getImportIdQualifiers at h
  unfold referredBucket
  split at h
  · rename_i m hm
    simp only [Except.ok.injEq] at h
    rw [hm, h]
  · exact nomatch h

theorem compare_same (k n s t : String) (rd : Option ResourceData) (hv : validName n)
    (hs : s = n ∨ s = "b/" ++ n) (ht : t = n ∨ t = "b/" ++ n) :
    compareResourceNames k s t rd = true := by
  unfold compareResourceNames
  rw [referredBucket_of_form s n hv hs, referredBucket_of_form t n hv ht]
  simp

theorem compare_different (k n m s t : String) (rd : Option ResourceData) (hn : validName n)
    (hm : validName m) (hne : n ≠ m) (hs : s = n ∨ s = "b/" ++ n) (ht : t = m ∨ t = "b/" ++ m) :
    compareResourceNames k s t rd = false := by
  unfold compareResourceNames
  rw [referredBucket_of_form s n hn hs, referredBucket_of_form t m hm ht]
  simp [hne]

theorem mutexKey_of_bucket (u : StorageBucketIamUpdater) :
    u.GetMutexKey = "iam-storage-bucket-b/" ++ u.bucket := by
  unfold StorageBucketIamUpdater.GetMutexKey StorageBucketIamUpdater.GetResourceId
  rw [← String.append_assoc]
  rfl

/-! ## Lemmas on marker replacement -/

theorem errMarker_data :
    errMarker.data = [lbrace, lbrace, 'e', 'r', 'r', Char.ofNat 125, Char.ofNat 125] := rfl

theorem isPrefixOf_append_self (l r : List Char) : l.isPrefixOf (l ++ r) = true := by
  induction l with
  | nil => simp [List.isPrefixOf]
  | cons c l ih => simp [List.isPrefixOf, ih]

/-- An occurrence that would run past the end of `b` into text starting with a
character foreign to `old` is an occurrence inside `b`. -/
theorem isPrefixOf_cut (x : Char) (rest : List Char) :
    ∀ (old b : List Char), x ∉ old → old.isPrefixOf (b ++ x :: rest) = true →
      old.isPrefixOf b = true := by
  intro old b
  induction b generalizing old with
  | nil =>
    intro hx h
    cases old with
    | nil => rfl
    | cons o old1 =>
      simp only [List.nil_append, List.isPrefixOf, Bool.and_eq_true, beq_iff_eq] at h
      exact absurd (h.1 ▸ List.mem_cons_self o old1) hx
  | cons c b ih =>
    intro hx h
    cases old with
    | nil => rfl
    | cons o old1 =>
      simp only [List.cons_append, List.isPrefixOf, Bool.and_eq_true, beq_iff_eq] at h
      have hx1 : x ∉ old1 := fun hm => hx (List.mem_cons_of_mem o hm)
      simp only [List.isPrefixOf, Bool.and_eq_true, beq_iff_eq]
      exact ⟨h.1, ih old1 hx1 h.2⟩

theorem containsChars_tail (sub a b : List Char) (h : containsChars sub (a ++ b) = false) :
    containsChars sub b = false := by
  induction a with
  | nil => exact h
  | cons c a ih =>
    simp only [List.cons_append, containsChars, Bool.or_eq_false_iff] at h
    exact ih h.2

theorem containsChars_mid (sub a b : List Char) : containsChars sub (a ++ (sub ++ b)) = true := by
  induction a with
  | nil =>
    have hp := isPrefixOf_append_self sub b
    rw [List.nil_append]
    cases hsb : sub ++ b with
    | nil =>
      have : sub = [] := (List.append_eq_nil.1 hsb).1
      simp [containsChars, this]
    | cons c cs =>
      rw [hsb] at hp
      rw [containsChars, hp]
      rfl
  | cons c a ih =>
    rw [List.cons_append, containsChars, ih, Bool.or_true]

/-- Text in which no occurrence of `old` starts is copied by the scan. -/
theorem replaceScan_copy (old new : List Char) (rest : List Char) :
    ∀ pre : List Char,
      (∀ a b, pre = a ++ b → b ≠ [] → old.isPrefixOf (b ++ rest) = false) →
      replaceScan old new 0 (pre ++ rest) = pre ++ replaceScan old new 0 rest := by
  intro pre
  induction pre with
  | nil => intro _; rfl
  | cons c pre ih =>
    intro h
    have h0 := h [] (c :: pre) rfl (by simp)
    rw [List.cons_append] at h0
    rw [List.cons_append, replaceScan, h0]
    simp only [Bool.false_eq_true, if_false, List.cons_append, List.cons.injEq, true_and]
    exact ih (fun a b hab hb => h (c :: a) b (by rw [hab, List.cons_append]) hb)

theorem replaceScan_skip (old new : List Char) :
    ∀ (cs : List Char) (k : Nat),
      replaceScan old new k cs = replaceScan old new 0 (cs.drop k) := by
  intro cs
  induction cs with
  | nil => intro k; cases k <;> rfl
  | cons c cs ih =>
    intro k
    cases k with
    | zero => rfl
    | succ k => rw [replaceScan, ih k, List.drop_succ_cons]

/-- At an occurrence of `old` the scan emits `new` and resumes after the occurrence. -/
theorem replaceScan_hit (old new rest : List Char) (hne : old ≠ []) :
    replaceScan old new 0 (old ++ rest) = new ++ replaceScan old new 0 rest := by
  cases old with
  | nil => exact absurd rfl hne
  | cons o old1 =>
    have hp := isPrefixOf_append_self (o :: old1) rest
    rw [List.cons_append] at hp
    rw [List.cons_append, replaceScan, hp, replaceScan_skip]
    simp

/-- Text without the first character of the marker is copied. -/
theorem replaceScan_copy_plain (new pre rest : List Char) (h : lbrace ∉ pre) :
    replaceScan errMarker.data new 0 (pre ++ rest)
      = pre ++ replaceScan errMarker.data new 0 rest := by
  apply replaceScan_copy
  intro a b hab hb
  cases b with
  | nil => exact absurd rfl hb
  | cons c b =>
    rw [errMarker_data, List.cons_append]
    simp only [List.isPrefixOf, Bool.and_eq_false_imp, beq_iff_eq]
    intro hc
    exact absurd (by rw [hab, ← hc]; simp) h

/-- Text that does not contain the marker, followed by a character foreign to the
marker, is copied. -/
theorem replaceScan_copy_free (new pre rest : List Char) (x : Char)
    (hx : x ∉ errMarker.data) (h : containsChars errMarker.data pre = false) :
    replaceScan errMarker.data new 0 (pre ++ x :: rest)
      = pre ++ replaceScan errMarker.data new 0 (x :: rest) := by
  apply replaceScan_copy
  intro a b hab hb
  have hb2 : containsChars errMarker.data b = false := containsChars_tail _ a b (hab ▸ h)
  cases hb3 : errMarker.data.isPrefixOf (b ++ x :: rest) with
  | false => rfl
  | true =>
    have hin := isPrefixOf_cut x rest _ b hx hb3
    cases b with
    | nil => exact absurd rfl hb
    | cons c b =>
      simp only [containsChars, Bool.or_eq_false_iff] at hb2
      rw [hin] at hb2
      exact absurd hb2.1 (by simp)

/-- The message `errwrap.Wrapf` builds from a fixed text ending in the marker. -/
theorem replaceErrMarker_fixed (text msg : String) (h : lbrace ∉ text.data) :
    replaceErrMarker (text ++ errMarker) msg = text ++ msg := by
  apply String.ext
  simp only [replaceErrMarker, String.data_append]
  rw [replaceScan_copy_plain _ _ _ h]
  have := replaceScan_hit errMarker.data msg.data [] (by rw [errMarker_data]; simp)
  rw [List.append_nil] at this
  rw [this]
  simp [replaceScan]

/-- The message `errwrap.Wrapf` builds around a description that does not itself
contain the marker. -/
theorem replaceErrMarker_described (text desc msg : String) (h : lbrace ∉ text.data)
    (hd : strContains desc errMarker = false) :
    replaceErrMarker (text ++ desc ++ ": " ++ errMarker) msg = text ++ desc ++ ": " ++ msg := by
  apply String.ext
  have hsep : (": " : String).data = [':', ' '] := rfl
  simp only [replaceErrMarker, String.data_append, hsep, List.append_assoc]
  rw [replaceScan_copy_plain _ _ _ h]
  rw [List.cons_append, replaceScan_copy_free _ _ _ ':' (by rw [errMarker_data]; decide) hd]
  have h2 := replaceScan_copy_plain msg.data [':', ' '] errMarker.data (by decide)
  rw [List.cons_append, List.cons_append, List.nil_append] at h2
  rw [List.cons_append, List.nil_append, h2]
  have := replaceScan_hit errMarker.data msg.data [] (by rw [errMarker_data]; simp)
  rw [List.append_nil] at this
  rw [this]
  simp [replaceScan]

theorem strContains_mid (a sub b : String) : strContains (a ++ sub ++ b) sub = true := by
  simp only [strContains, String.data_append, List.append_assoc]
  exact containsChars_mid _ _ _

/-! ## Lemmas on the policy operations -/

theorem urlTemplate_iam (bucket : String) :
    urlTemplate bucket "iam" = "\x7b\x7bStorageBasePath\x7d\x7d" ++ "b/" ++ bucket ++ "/iam" := by
  apply String.ext
  simp [urlTemplate, String.data_append]

theorem retrieving_plain : lbrace ∉ ("Error retrieving IAM policy for " : String).data := by
  decide

theorem setting_plain : lbrace ∉ ("Error setting IAM policy for " : String).data := by
  decide

theorem convert_plain :
    lbrace ∉ ("Cannot convert a policy to a resource manager policy: " : String).data := by
  decide

/-! ## The claims -/

/-- C1: for every valid short-form identifier `name` (non-empty, no `/`), the producer
called on data whose `bucket` field holds `name` succeeds, and the updater it returns
has `GetResourceId() = "b/" ++ name`. -/
theorem producer_short_form (d : ResourceData) (config : Config) (name : String)
    (hv : validName name) (hf : d.hasField "bucket" name) :
    ∃ u, StorageBucketIamUpdaterProducer d config = .ok u ∧
      u.GetResourceId = "b/" ++ name := by
  obtain ⟨d1, _, h⟩ := producer_of_form d config name name hv (Or.inl rfl) hf
  exact ⟨_, h, rfl⟩

theorem producer_short_form_witness :
    validName "my-bucket" ∧
      ∃ u, StorageBucketIamUpdaterProducer ⟨[("bucket", "my-bucket")], "", []⟩ ⟨"tf", "https://"⟩
          = .ok u ∧ u.GetResourceId = "b/" ++ "my-bucket" :=
  ⟨by decide, producer_short_form ⟨[("bucket", "my-bucket")], "", []⟩ ⟨"tf", "https://"⟩
    "my-bucket" (by decide) rfl⟩

/-- C2: for every valid long-form identifier `"b/" ++ name`, resolution through the
ordered pattern list yields the same `"b/" ++ name`; and resolution is idempotent:
constructing an updater from the `GetResourceId()` of any previously constructed
updater succeeds with the same `GetResourceId()`. -/
theorem producer_long_form_idempotent (d : ResourceData) (config : Config) (name : String)
    (hv : validName name) (hf : d.hasField "bucket" ("b/" ++ name)) :
    (∃ u, StorageBucketIamUpdaterProducer d config = .ok u ∧
      u.GetResourceId = "b/" ++ name) ∧
    ∀ (d0 : ResourceData) (config0 : Config) (u0 : StorageBucketIamUpdater),
      StorageBucketIamUpdaterProducer d0 config0 = .ok u0 →
      ∀ (d2 : ResourceData) (config2 : Config), d2.hasField "bucket" u0.GetResourceId →
        ∃ u2, StorageBucketIamUpdaterProducer d2 config2 = .ok u2 ∧
          u2.GetResourceId = u0.GetResourceId := by
  constructor
  · obtain ⟨d1, _, h⟩ := producer_of_form d config _ name hv (Or.inr rfl) hf
    exact ⟨_, h, rfl⟩
  · intro d0 config0 u0 h0 d2 config2 h2
    obtain ⟨n0, hv0, _, hb, _, _⟩ := producer_ok_inv d0 config0 u0 h0
    have hid : u0.GetResourceId = "b/" ++ n0 := by
      simp [StorageBucketIamUpdater.GetResourceId, hb]
    rw [hid] at h2 ⊢
    obtain ⟨d3, _, h⟩ := producer_of_form d2 config2 _ n0 hv0 (Or.inr rfl) h2
    exact ⟨_, h, rfl⟩

theorem producer_long_form_idempotent_witness :
    (∃ u, StorageBucketIamUpdaterProducer ⟨[("bucket", "b/my-bucket")], "", []⟩ ⟨"tf", "https://"⟩
        = .ok u ∧ u.GetResourceId = "b/" ++ "my-bucket") ∧
      ∃ u2, StorageBucketIamUpdaterProducer ⟨[("bucket", "b/my-bucket")], "", []⟩ ⟨"tf", "https://"⟩
        = .ok u2 ∧ u2.GetResourceId = StorageBucketIamUpdater.GetResourceId
          ⟨"my-bucket", ⟨[("bucket", "b/my-bucket")], "", []⟩, ⟨"tf", "https://"⟩⟩ :=
  have h := producer_long_form_idempotent ⟨[("bucket", "b/my-bucket")], "", []⟩ ⟨"tf", "https://"⟩
    "my-bucket" (by decide) rfl
  ⟨h.1, h.2 ⟨[("bucket", "my-bucket")], "", []⟩ ⟨"tf", "https://"⟩ _ rfl
    ⟨[("bucket", "b/my-bucket")], "", []⟩ ⟨"tf", "https://"⟩ rfl⟩

/-- C3: for every identifier that is neither the short form `name` nor the long form
`"b/" ++ name` of a valid name (such as the empty string or `foo/bar`), construction
fails: the producer returns an error and no updater, and `StorageBucketIdParseFunc`
returns an error. -/
theorem construction_rejects_other_forms (s : String) (hshort : ¬ validName s)
    (hlong : ∀ name, validName name → s ≠ "b/" ++ name) :
    (∀ (d : ResourceData) (config : Config), d.hasField "bucket" s →
      ∃ e, StorageBucketIamUpdaterProducer d config = .error e) ∧
    (∀ (d : ResourceData) (config : Config), d.Id = s →
      ∃ e, StorageBucketIdParseFunc d config = .error e) := by
  have hno : ∀ (d : ResourceData) (config : Config),
      ∃ e, getImportIdQualifiers bucketIdPatterns d config s = .error e := by
    intro d config
    cases hq : getImportIdQualifiers bucketIdPatterns d config s with
    | error e => exact ⟨e, rfl⟩
    | ok m =>
      obtain ⟨name, hv, hform, _⟩ := (getImportIdQualifiers_ok_iff _ _ _ _).1 hq
      rcases hform with h | h
      · exact absurd (h ▸ hv) hshort
      · exact absurd h (hlong name hv)
  constructor
  · intro d config hf
    have hget : d.Get "bucket" = s := by
      unfold ResourceData.hasField at hf
      simp [ResourceData.Get, hf]
    obtain ⟨e, he⟩ := hno d config
    refine ⟨e, ?_⟩
    unfold StorageBucketIamUpdaterProducer
    simp only [hget, he]
  · intro d config hid
    obtain ⟨e, he⟩ := hno d config
    refine ⟨e, ?_⟩
    unfold StorageBucketIdParseFunc
    simp only [hid, he]

theorem construction_rejects_other_forms_witness :
    (∃ e, StorageBucketIamUpdaterProducer ⟨[("bucket", "foo/bar")], "", []⟩ ⟨"tf", "https://"⟩
        = .error e) ∧
    (∃ e, StorageBucketIdParseFunc ⟨[("bucket", "")], "foo/bar", []⟩ ⟨"tf", "https://"⟩
        = .error e) ∧
    (∃ e, StorageBucketIamUpdaterProducer ⟨[("bucket", "")], "", []⟩ ⟨"tf", "https://"⟩
        = .error e) ∧
    ∃ e, StorageBucketIdParseFunc ⟨[("bucket", "")], "", []⟩ ⟨"tf", "https://"⟩ = .error e :=
  have h := construction_rejects_other_forms "foo/bar" (by decide)
    (fun name _ h => by
      have h2 := congrArg String.data h
      rw [data_long_form] at h2
      have h3 : ("foo/bar" : String).data.head? = some 'b' := by rw [h2]; rfl
      exact absurd h3 (by decide))
  have h0 := construction_rejects_other_forms "" (by decide)
    (fun name _ h => by
      have h2 := congrArg String.data h
      rw [data_long_form] at h2
      have h3 : ("" : String).data.head? = some 'b' := by rw [h2]; rfl
      exact absurd h3 (by decide))
  ⟨h.1 ⟨[("bucket", "foo/bar")], "", []⟩ ⟨"tf", "https://"⟩ rfl,
    h.2 ⟨[("bucket", "")], "foo/bar", []⟩ ⟨"tf", "https://"⟩ rfl,
    h0.1 ⟨[("bucket", "")], "", []⟩ ⟨"tf", "https://"⟩ rfl,
    h0.2 ⟨[("bucket", "")], "", []⟩ ⟨"tf", "https://"⟩ rfl⟩

/-- C4: whenever `StorageBucketIdParseFunc` succeeds on a record whose id is the short
or the long form of a valid bucket `name`, the resulting record has both its `bucket`
field and its id equal to `"b/" ++ name`, hence equal to each other. -/
theorem parseFunc_sets_canonical (d d2 : ResourceData) (config : Config) (name : String)
    (hv : validName name) (hid : d.Id = name ∨ d.Id = "b/" ++ name)
    (hok : StorageBucketIdParseFunc d config = .ok d2) :
    d2.Get "bucket" = "b/" ++ name ∧ d2.Id = "b/" ++ name ∧ d2.Get "bucket" = d2.Id := by
  obtain ⟨n, d1, hn, hform, hset, rfl⟩ := parseFunc_ok_inv d d2 config hok
  have hnm : n = name := form_name_unique d.id n name hn hv hform hid
  subst hnm
  have hget := (get_after_set d d1 "bucket" _ hset).1
  have h1 : (d1.SetId ("b/" ++ n)).Get "bucket" = "b/" ++ n := hget
  have h2 : (d1.SetId ("b/" ++ n)).Id = "b/" ++ n := rfl
  exact ⟨h1, h2, h1.trans h2.symm⟩

theorem parseFunc_sets_canonical_witness :
    ResourceData.Get ⟨[("bucket", "b/my-bucket")], "b/my-bucket", []⟩ "bucket"
        = "b/" ++ "my-bucket" ∧
      ResourceData.Id ⟨[("bucket", "b/my-bucket")], "b/my-bucket", []⟩ = "b/" ++ "my-bucket" ∧
      ResourceData.Get ⟨[("bucket", "b/my-bucket")], "b/my-bucket", []⟩ "bucket"
        = ResourceData.Id ⟨[("bucket", "b/my-bucket")], "b/my-bucket", []⟩ :=
  parseFunc_sets_canonical ⟨[("bucket", "")], "my-bucket", []⟩ _ ⟨"tf", "https://"⟩ "my-bucket"
    (by decide) (Or.inl rfl) rfl

/-- C5: on every input on which construction succeeds, by the configuration path or
by the import path, the stored identifier (the value returned by `GetResourceId()`,
written back to the `bucket` field and, on the import path, set as id) is in canonical
long form: `"b/"` followed by a non-empty name without `/`. -/
theorem construction_stores_canonical (d : ResourceData) (config : Config) :
    (∀ u, StorageBucketIamUpdaterProducer d config = .ok u →
      ∃ name, validName name ∧ u.GetResourceId = "b/" ++ name ∧
        u.d.Get "bucket" = "b/" ++ name) ∧
    (∀ d2, StorageBucketIdParseFunc d config = .ok d2 →
      ∃ name, validName name ∧ d2.Get "bucket" = "b/" ++ name ∧ d2.Id = "b/" ++ name) := by
  constructor
  · intro u h
    obtain ⟨name, hv, _, hb, _, hset⟩ := producer_ok_inv d config u h
    refine ⟨name, hv, ?_, (get_after_set d u.d "bucket" _ hset).1⟩
    simp [StorageBucketIamUpdater.GetResourceId, hb]
  · intro d2 h
    obtain ⟨name, d1, hv, _, hset, rfl⟩ := parseFunc_ok_inv d d2 config h
    exact ⟨name, hv, (get_after_set d d1 "bucket" _ hset).1, rfl⟩

theorem construction_stores_canonical_witness :
    (∃ name, validName name ∧
      StorageBucketIamUpdater.GetResourceId
        ⟨"my-bucket", ⟨[("bucket", "b/my-bucket")], "", []⟩, ⟨"tf", "https://"⟩⟩ = "b/" ++ name ∧
      ResourceData.Get ⟨[("bucket", "b/my-bucket")], "", []⟩ "bucket" = "b/" ++ name) ∧
    ∃ name, validName name ∧
      ResourceData.Get ⟨[("bucket", "b/logs")], "b/logs", []⟩ "bucket" = "b/" ++ name ∧
      ResourceData.Id ⟨[("bucket", "b/logs")], "b/logs", []⟩ = "b/" ++ name :=
  ⟨(construction_stores_canonical ⟨[("bucket", "my-bucket")], "", []⟩ ⟨"tf", "https://"⟩).1 _ rfl,
    (construction_stores_canonical ⟨[("bucket", "")], "b/logs", []⟩ ⟨"tf", "https://"⟩).2 _ rfl⟩

/-- C6: `StorageBucketDiffSuppress` returns true whenever old and new name the same
bucket in whatever form (`n` against `"b/" ++ n`, `"b/" ++ n` against `n`, `n` against
`n`), and false for two different bucket names in whatever forms; in particular it is
true on `my-bucket`, `b/my-bucket` and false on `bucket-a`, `bucket-b`. -/
theorem diffSuppress_same_bucket (k n : String) (rd : Option ResourceData)
    (hv : validName n) :
    StorageBucketDiffSuppress k n ("b/" ++ n) rd = true ∧
    StorageBucketDiffSuppress k ("b/" ++ n) n rd = true ∧
    StorageBucketDiffSuppress k n n rd = true ∧
    (∀ m, validName m → n ≠ m →
      StorageBucketDiffSuppress k n m rd = false ∧
      StorageBucketDiffSuppress k n ("b/" ++ m) rd = false ∧
      StorageBucketDiffSuppress k ("b/" ++ n) m rd = false ∧
      StorageBucketDiffSuppress k ("b/" ++ n) ("b/" ++ m) rd = false) ∧
    StorageBucketDiffSuppress k "my-bucket" "b/my-bucket" rd = true ∧
    StorageBucketDiffSuppress k "bucket-a" "bucket-b" rd = false := by
  unfold StorageBucketDiffSuppress
  refine ⟨compare_same _ n _ _ _ hv (Or.inl rfl) (Or.inr rfl),
    compare_same _ n _ _ _ hv (Or.inr rfl) (Or.inl rfl),
    compare_same _ n _ _ _ hv (Or.inl rfl) (Or.inl rfl), ?_, rfl, rfl⟩
  intro m hm hne
  exact ⟨compare_different _ n m _ _ _ hv hm hne (Or.inl rfl) (Or.inl rfl),
    compare_different _ n m _ _ _ hv hm hne (Or.inl rfl) (Or.inr rfl),
    compare_different _ n m _ _ _ hv hm hne (Or.inr rfl) (Or.inl rfl),
    compare_different _ n m _ _ _ hv hm hne (Or.inr rfl) (Or.inr rfl)⟩

theorem diffSuppress_same_bucket_witness :
    validName "logs" ∧
      StorageBucketDiffSuppress "bucket" "logs" ("b/" ++ "logs") none = true ∧
      StorageBucketDiffSuppress "bucket" "logs" "audit" none = false :=
  have h := diffSuppress_same_bucket "bucket" "logs" none (by decide)
  ⟨by decide, h.1, (h.2.2.2.1 "audit" (by decide) (by decide)).1⟩

/-- C7: `GetMutexKey()` is a function of the resolved identifier alone, namely
`"iam-storage-bucket-" ++ GetResourceId()`; so two updaters constructed separately for
the same bucket, one from the short form `name` and one from the long form
`"b/" ++ name`, both return the key `"iam-storage-bucket-b/" ++ name`. -/
theorem mutexKey_same_bucket (name : String) (hv : validName name)
    (d1 d2 : ResourceData) (config1 config2 : Config)
    (h1 : d1.hasField "bucket" name) (h2 : d2.hasField "bucket" ("b/" ++ name)) :
    (∀ u : StorageBucketIamUpdater,
      u.GetMutexKey = "iam-storage-bucket-" ++ u.GetResourceId) ∧
    ∃ u1 u2, StorageBucketIamUpdaterProducer d1 config1 = .ok u1 ∧
      StorageBucketIamUpdaterProducer d2 config2 = .ok u2 ∧
      u1.GetMutexKey = "iam-storage-bucket-b/" ++ name ∧
      u2.GetMutexKey = "iam-storage-bucket-b/" ++ name := by
  refine ⟨fun _ => rfl, ?_⟩
  obtain ⟨e1, _, hp1⟩ := producer_of_form d1 config1 _ name hv (Or.inl rfl) h1
  obtain ⟨e2, _, hp2⟩ := producer_of_form d2 config2 _ name hv (Or.inr rfl) h2
  exact ⟨_, _, hp1, hp2, mutexKey_of_bucket _, mutexKey_of_bucket _⟩

theorem mutexKey_same_bucket_witness :
    ∃ u1 u2,
      StorageBucketIamUpdaterProducer ⟨[("bucket", "logs")], "", []⟩ ⟨"tf", "https://"⟩ = .ok u1 ∧
      StorageBucketIamUpdaterProducer ⟨[("bucket", "b/logs")], "", []⟩ ⟨"cli", "http://"⟩
        = .ok u2 ∧
      u1.GetMutexKey = "iam-storage-bucket-b/" ++ "logs" ∧
      u2.GetMutexKey = "iam-storage-bucket-b/" ++ "logs" :=
  (mutexKey_same_bucket "logs" (by decide) ⟨[("bucket", "logs")], "", []⟩
    ⟨[("bucket", "b/logs")], "", []⟩ ⟨"tf", "https://"⟩ ⟨"cli", "http://"⟩ rfl rfl).2

/-- C10: for an updater with bucket name `n`, both policy operations target the URL
substituted from the template `{{StorageBasePath}}` ++ `"b/"` ++ n ++ `"/iam"`:
`GetResourceIamPolicy` issues one GET without body to that URL extended by the single
query parameter `optionsRequestedPolicyVersion = IamPolicyVersion`, and
`SetResourceIamPolicy` issues one PUT to that URL with no query parameter added, with
the converted caller policy as body and the resource's create timeout. -/
theorem policy_requests_target_iam_url {Payload Policy : Type}
    (env : Collaborators Payload Policy) (u : StorageBucketIamUpdater) (policy : Policy)
    (url url2 userAgent : String) (json : Payload)
    (hurl : env.ReplaceVars u.d u.Config
      ("\x7b\x7bStorageBasePath\x7d\x7d" ++ "b/" ++ u.bucket ++ "/iam") = .ok url)
    (hquery : env.AddQueryParams url
      [("optionsRequestedPolicyVersion", toString env.IamPolicyVersion)] = .ok url2)
    (hagent : env.generateUserAgentString u.d u.Config.UserAgent = .ok userAgent)
    (hjson : env.ConvertToMap policy = .ok json) :
    (u.GetResourceIamPolicy env).1 = [⟨"GET", "", url2, userAgent, none, none⟩] ∧
    (u.SetResourceIamPolicy env policy).1 =
      [⟨"PUT", "", url, userAgent, some json, some (u.d.Timeout "create")⟩] := by
  constructor
  · simp only [StorageBucketIamUpdater.GetResourceIamPolicy,
      StorageBucketIamUpdater.qualifyBucketUrl, urlTemplate_iam, hurl, policyVersionParams,
      hquery, hagent]
    cases env.SendRequest u.Config "GET" "" url2 userAgent none with
    | error e => rfl
    | ok payload =>
      dsimp only
      cases env.Convert payload <;> rfl
  · simp only [StorageBucketIamUpdater.SetResourceIamPolicy,
      StorageBucketIamUpdater.qualifyBucketUrl, urlTemplate_iam, hurl, hagent, hjson]
    cases env.SendRequestWithTimeout u.Config "PUT" "" url userAgent (some json)
      (u.d.Timeout TimeoutCreate) <;> rfl

theorem policy_requests_target_iam_url_witness :
    (StorageBucketIamUpdater.GetResourceIamPolicy (stubEnv substBasePath (.ok "policy"))
        ⟨"logs", ⟨[("bucket", "b/logs")], "b/logs", [("create", 1200)]⟩,
          ⟨"tf", "https://storage.googleapis.com/storage/v1/"⟩⟩).1 =
      [⟨"GET", "", "https://storage.googleapis.com/storage/v1/b/logs/iam?optionsRequestedPolicyVersion=3",
        "tf", none, none⟩] ∧
    (StorageBucketIamUpdater.SetResourceIamPolicy (stubEnv substBasePath (.ok "policy"))
        ⟨"logs", ⟨[("bucket", "b/logs")], "b/logs", [("create", 1200)]⟩,
          ⟨"tf", "https://storage.googleapis.com/storage/v1/"⟩⟩ "bindings").1 =
      [⟨"PUT", "", "https://storage.googleapis.com/storage/v1/b/logs/iam", "tf",
        some "bindings", some 1200⟩] :=
  policy_requests_target_iam_url (stubEnv substBasePath (.ok "policy"))
    ⟨"logs", ⟨[("bucket", "b/logs")], "b/logs", [("create", 1200)]⟩,
      ⟨"tf", "https://storage.googleapis.com/storage/v1/"⟩⟩ "bindings"
    "https://storage.googleapis.com/storage/v1/b/logs/iam"
    "https://storage.googleapis.com/storage/v1/b/logs/iam?optionsRequestedPolicyVersion=3"
    "tf" "bindings" rfl rfl rfl rfl

/-- C8 (evaluation at the failing input): with the bucket name `{{err}}`, accepted by
the producer, and a backend answering 403, both operations return an error that wraps
the transport error, but `errwrap.Wrapf` has replaced the marker inside the description
too, so the message does not contain `DescribeResource()`. -/
theorem transport_error_marker_bucket :
    StorageBucketIamUpdaterProducer ⟨[("bucket", "\x7b\x7berr\x7d\x7d")], "", []⟩ ⟨"tf", "https://"⟩
      = .ok ⟨"\x7b\x7berr\x7d\x7d", ⟨[("bucket", "b/\x7b\x7berr\x7d\x7d")], "", []⟩, ⟨"tf", "https://"⟩⟩ ∧
    StorageBucketIamUpdater.DescribeResource (fun _ => true)
        ⟨"\x7b\x7berr\x7d\x7d", ⟨[("bucket", "b/\x7b\x7berr\x7d\x7d")], "", []⟩, ⟨"tf", "https://"⟩⟩
      = "storage bucket \"b/\x7b\x7berr\x7d\x7d\"" ∧
    (StorageBucketIamUpdater.GetResourceIamPolicy
        (stubEnv substBasePath (.error (.plain "googleapi: Error 403: Forbidden")))
        ⟨"\x7b\x7berr\x7d\x7d", ⟨[("bucket", "b/\x7b\x7berr\x7d\x7d")], "", []⟩, ⟨"tf", "https://"⟩⟩).2
      = .error (.wrapped
          ("Error retrieving IAM policy for storage bucket \"b/googleapi: Error 403: Forbidden\"" ++
            ": googleapi: Error 403: Forbidden")
          (.plain "googleapi: Error 403: Forbidden")) ∧
    (StorageBucketIamUpdater.SetResourceIamPolicy
        (stubEnv substBasePath (.error (.plain "googleapi: Error 403: Forbidden")))
        ⟨"\x7b\x7berr\x7d\x7d", ⟨[("bucket", "b/\x7b\x7berr\x7d\x7d")], "", []⟩, ⟨"tf", "https://"⟩⟩
        "bindings").2
      = .error (.wrapped
          ("Error setting IAM policy for storage bucket \"b/googleapi: Error 403: Forbidden\"" ++
            ": googleapi: Error 403: Forbidden")
          (.plain "googleapi: Error 403: Forbidden")) ∧
    strContains
        ("Error retrieving IAM policy for storage bucket \"b/googleapi: Error 403: Forbidden\"" ++
          ": googleapi: Error 403: Forbidden")
        "storage bucket \"b/\x7b\x7berr\x7d\x7d\"" = false ∧
    strContains
        ("Error setting IAM policy for storage bucket \"b/googleapi: Error 403: Forbidden\"" ++
          ": googleapi: Error 403: Forbidden")
        "storage bucket \"b/\x7b\x7berr\x7d\x7d\"" = false :=
  ⟨rfl, by decide, rfl, rfl, by decide, by decide⟩

/-- C9 (counterexample): a failure of URL building is returned as it is; its message
`no such field` does not contain the description of the resource. -/
theorem url_error_not_described :
    (StorageBucketIamUpdater.GetResourceIamPolicy
        (stubEnv (failVars "no such field") (.ok "policy"))
        ⟨"logs", ⟨[("bucket", "b/logs")], "", []⟩, ⟨"tf", "https://"⟩⟩).2
      = .error (.plain "no such field") ∧
    StorageBucketIamUpdater.DescribeResource (fun _ => true)
        ⟨"logs", ⟨[("bucket", "b/logs")], "", []⟩, ⟨"tf", "https://"⟩⟩
      = "storage bucket \"b/logs\"" ∧
    strContains (GoError.plain "no such field").Error "storage bucket \"b/logs\"" = false :=
  ⟨rfl, by decide, by decide⟩

/-- C9 (amended): of the errors `GetResourceIamPolicy` and `SetResourceIamPolicy`
return, only a failure of the transport call is wrapped with the description of the
resource: the result then wraps the transport error and, when the description holds no
`{{err}}` marker, its message is the operation's text, the description, `": "` and the
transport message, so it contains the description. A failure of URL building, of adding
the query parameter, of user-agent generation or of `ConvertToMap` is returned
unchanged, and a failure of `Convert` is wrapped with the fixed text
`Cannot convert a policy to a resource manager policy: ` alone. -/
theorem policy_errors_by_step {Payload Policy : Type} (env : Collaborators Payload Policy)
    (u : StorageBucketIamUpdater) (policy : Policy) (e : GoError) :
    (u.qualifyBucketUrl env "iam" = .error e →
      (u.GetResourceIamPolicy env).2 = .error e) ∧
    (∀ url, u.qualifyBucketUrl env "iam" = .ok url →
      env.AddQueryParams url (policyVersionParams env) = .error e →
      (u.GetResourceIamPolicy env).2 = .error e) ∧
    (∀ url url2, u.qualifyBucketUrl env "iam" = .ok url →
      env.AddQueryParams url (policyVersionParams env) = .ok url2 →
      env.generateUserAgentString u.d u.Config.UserAgent = .error e →
      (u.GetResourceIamPolicy env).2 = .error e) ∧
    (∀ url url2 userAgent, u.qualifyBucketUrl env "iam" = .ok url →
      env.AddQueryParams url (policyVersionParams env) = .ok url2 →
      env.generateUserAgentString u.d u.Config.UserAgent = .ok userAgent →
      env.SendRequest u.Config "GET" "" url2 userAgent none = .error e →
      ∃ w, (u.GetResourceIamPolicy env).2 = .error w ∧ w.inner? = some e ∧
        (strContains (u.DescribeResource env.printable) errMarker = false →
          w.Error = "Error retrieving IAM policy for " ++ u.DescribeResource env.printable
            ++ ": " ++ e.Error ∧
          strContains w.Error (u.DescribeResource env.printable) = true)) ∧
    (∀ url url2 userAgent payload, u.qualifyBucketUrl env "iam" = .ok url →
      env.AddQueryParams url (policyVersionParams env) = .ok url2 →
      env.generateUserAgentString u.d u.Config.UserAgent = .ok userAgent →
      env.SendRequest u.Config "GET" "" url2 userAgent none = .ok payload →
      env.Convert payload = .error e →
      ∃ w, (u.GetResourceIamPolicy env).2 = .error w ∧ w.inner? = some e ∧
        w.Error = "Cannot convert a policy to a resource manager policy: " ++ e.Error) ∧
    (env.ConvertToMap policy = .error e →
      (u.SetResourceIamPolicy env policy).2 = .error e) ∧
    (∀ json, env.ConvertToMap policy = .ok json →
      u.qualifyBucketUrl env "iam" = .error e →
      (u.SetResourceIamPolicy env policy).2 = .error e) ∧
    (∀ json url, env.ConvertToMap policy = .ok json →
      u.qualifyBucketUrl env "iam" = .ok url →
      env.generateUserAgentString u.d u.Config.UserAgent = .error e →
      (u.SetResourceIamPolicy env policy).2 = .error e) ∧
    (∀ json url userAgent, env.ConvertToMap policy = .ok json →
      u.qualifyBucketUrl env "iam" = .ok url →
      env.generateUserAgentString u.d u.Config.UserAgent = .ok userAgent →
      env.SendRequestWithTimeout u.Config "PUT" "" url userAgent (some json)
        (u.d.Timeout TimeoutCreate) = .error e →
      ∃ w, (u.SetResourceIamPolicy env policy).2 = .error w ∧ w.inner? = some e ∧
        (strContains (u.DescribeResource env.printable) errMarker = false →
          w.Error = "Error setting IAM policy for " ++ u.DescribeResource env.printable
            ++ ": " ++ e.Error ∧
          strContains w.Error (u.DescribeResource env.printable) = true)) := by
  refine ⟨?_, ?_, ?_, ?_, ?_, ?_, ?_, ?_, ?_⟩
  · intro h1
    simp only [StorageBucketIamUpdater.GetResourceIamPolicy, h1]
  · intro url h1 h2
    simp only [StorageBucketIamUpdater.GetResourceIamPolicy, h1, h2]
  · intro url url2 h1 h2 h3
    simp only [StorageBucketIamUpdater.GetResourceIamPolicy, h1, h2, h3]
  · intro url url2 userAgent h1 h2 h3 h4
    refine ⟨Wrapf ("Error retrieving IAM policy for " ++ u.DescribeResource env.printable
      ++ ": " ++ errMarker) e,
      by simp only [StorageBucketIamUpdater.GetResourceIamPolicy, h1, h2, h3, h4], rfl, ?_⟩
    intro hfree
    have hmsg := replaceErrMarker_described "Error retrieving IAM policy for "
      (u.DescribeResource env.printable) e.Error retrieving_plain hfree
    refine ⟨hmsg, ?_⟩
    show strContains (replaceErrMarker _ _) _ = true
    rw [hmsg, String.append_assoc]
    exact strContains_mid _ _ _
  · intro url url2 userAgent payload h1 h2 h3 h4 h5
    exact ⟨Wrapf ("Cannot convert a policy to a resource manager policy: " ++ errMarker) e,
      by simp only [StorageBucketIamUpdater.GetResourceIamPolicy, h1, h2, h3, h4, h5],
      rfl, replaceErrMarker_fixed _ _ convert_plain⟩
  · intro h1
    simp only [StorageBucketIamUpdater.SetResourceIamPolicy, h1]
  · intro json h1 h2
    simp only [StorageBucketIamUpdater.SetResourceIamPolicy, h1, h2]
  · intro json url h1 h2 h3
    simp only [StorageBucketIamUpdater.SetResourceIamPolicy, h1, h2, h3]
  · intro json url userAgent h1 h2 h3 h4
    refine ⟨Wrapf ("Error setting IAM policy for " ++ u.DescribeResource env.printable
      ++ ": " ++ errMarker) e,
      by simp only [StorageBucketIamUpdater.SetResourceIamPolicy, h1, h2, h3, h4], rfl, ?_⟩
    intro hfree
    have hmsg := replaceErrMarker_described "Error setting IAM policy for "
      (u.DescribeResource env.printable) e.Error setting_plain hfree
    refine ⟨hmsg, ?_⟩
    show strContains (replaceErrMarker _ _) _ = true
    rw [hmsg, String.append_assoc]
    exact strContains_mid _ _ _

theorem policy_errors_by_step_witness :
    (StorageBucketIamUpdater.GetResourceIamPolicy
        (stubEnv (failVars "no such field") (.ok "policy"))
        ⟨"logs", ⟨[("bucket", "b/logs")], "", []⟩, ⟨"tf", "https://"⟩⟩).2
      = .error (.plain "no such field") ∧
    ∃ w, (StorageBucketIamUpdater.GetResourceIamPolicy
        (stubEnv substBasePath (.error (.plain "googleapi: Error 403: Forbidden")))
        ⟨"logs", ⟨[("bucket", "b/logs")], "", []⟩, ⟨"tf", "https://"⟩⟩).2 = .error w ∧
      w.inner? = some (.plain "googleapi: Error 403: Forbidden") ∧
      (strContains "storage bucket \"b/logs\"" errMarker = false →
        w.Error = "Error retrieving IAM policy for " ++ "storage bucket \"b/logs\""
          ++ ": " ++ "googleapi: Error 403: Forbidden" ∧
        strContains w.Error "storage bucket \"b/logs\"" = true) :=
  ⟨(policy_errors_by_step (stubEnv (failVars "no such field") (.ok "policy"))
      ⟨"logs", ⟨[("bucket", "b/logs")], "", []⟩, ⟨"tf", "https://"⟩⟩ "bindings"
      (.plain "no such field")).1 rfl,
    (policy_errors_by_step
      (stubEnv substBasePath (.error (.plain "googleapi: Error 403: Forbidden")))
      ⟨"logs", ⟨[("bucket", "b/logs")], "", []⟩, ⟨"tf", "https://"⟩⟩ "bindings"
      (.plain "googleapi: Error 403: Forbidden")).2.2.2.1
      "https://b/logs/iam" "https://b/logs/iam?optionsRequestedPolicyVersion=3" "tf"
      rfl rfl rfl rfl⟩

end StorageBucketIam
